import Mathlib

/-!
A shallow embedding of the CHIP-8-style CPU interpreter in `src/main.rs`,
with theorems about its operations (fetch/decode, dispatch, jump, call,
return, add, subtract) and the interpreter loop.

Machine integers are modelled as `Nat` with explicit `% 2^w` where the Rust
code performs wrapping arithmetic or an `as` cast; the fixed-size arrays
`registers : [u8; 16]`, `memory : [u8; 0x1000]` and `stack : [u16; 16]`
become functions out of `Fin`.  Rust's panics (index out of bounds, the
explicit stack-overflow/underflow panics, and the `todo!` for unimplemented
opcodes) become `Except.error` values of type `Fault`.  The `println!`
diagnostics have no effect on machine state and are omitted.
-/

namespace Chip8

/-- The ways the interpreter can abort: the two explicit stack panics, the
`todo!` reached by an unimplemented opcode (which reports the raw 16-bit
word), and a Rust array-index bounds panic. -/
inductive Fault where
  | stackOverflow
  | stackUnderflow
  | unsupportedOpcode (opcode : Nat)
  | indexOutOfBounds
deriving DecidableEq, Repr

/-- The machine state, `struct CPU` in the source: sixteen 8-bit registers,
a program counter (`position_in_memory`), 4096 bytes of memory, a 16-slot
stack of 16-bit return addresses, and a stack pointer. -/
structure CPU where
  registers : Fin 16 → Nat
  position_in_memory : Nat
  memory : Fin 4096 → Nat
  stack : Fin 16 → Nat
  stack_pointer : Nat

/-- Bounds-checked read of `registers[i]` (a Rust index panic becomes
`indexOutOfBounds`). -/
def regGet (cpu : CPU) (i : Nat) : Except Fault Nat :=
  if h : i < 16 then .ok (cpu.registers ⟨i, h⟩) else .error .indexOutOfBounds

/-- Bounds-checked write of `registers[i] = v`. -/
def regSet (cpu : CPU) (i : Nat) (v : Nat) : Except Fault CPU :=
  if h : i < 16 then
    .ok { cpu with registers := Function.update cpu.registers ⟨i, h⟩ v }
  else .error .indexOutOfBounds

/-- Bounds-checked read of `memory[i]`. -/
def memGet (cpu : CPU) (i : Nat) : Except Fault Nat :=
  if h : i < 4096 then .ok (cpu.memory ⟨i, h⟩) else .error .indexOutOfBounds

/-- Bounds-checked read of `stack[i]`. -/
def stackGet (cpu : CPU) (i : Nat) : Except Fault Nat :=
  if h : i < 16 then .ok (cpu.stack ⟨i, h⟩) else .error .indexOutOfBounds

/-- Bounds-checked write of `stack[i] = v`. -/
def stackSet (cpu : CPU) (i : Nat) (v : Nat) : Except Fault CPU :=
  if h : i < 16 then
    .ok { cpu with stack := Function.update cpu.stack ⟨i, h⟩ v }
  else .error .indexOutOfBounds

/-- `fn read_opcode`: big-endian concatenation of the two bytes at the
program counter. -/
def read_opcode (cpu : CPU) : Except Fault Nat := do
  let p := cpu.position_in_memory
  let op_byte1 ← memGet cpu p
  let op_byte2 ← memGet cpu (p + 1)
  pure (op_byte1 <<< 8 ||| op_byte2)

/-- `fn call`: the source guard is `sp > stack.len()` (i.e. `sp > 16`); on
the non-panicking path it stores `position_in_memory as u16` (hence the
`% 65536`) into `stack[sp]`, increments the stack pointer and jumps. -/
def call (cpu : CPU) (addr : Nat) : Except Fault CPU :=
  if cpu.stack_pointer > 16 then
    .error .stackOverflow
  else do
    let cpu1 ← stackSet cpu cpu.stack_pointer (cpu.position_in_memory % 65536)
    .ok { cpu1 with stack_pointer := cpu1.stack_pointer + 1
                    position_in_memory := addr }

/-- `fn ret`: underflow check, then decrement the stack pointer and jump to
`stack[stack_pointer]` read at the decremented index. -/
def ret (cpu : CPU) : Except Fault CPU :=
  if cpu.stack_pointer = 0 then
    .error .stackUnderflow
  else do
    let call_addr ← stackGet cpu (cpu.stack_pointer - 1)
    .ok { cpu with stack_pointer := cpu.stack_pointer - 1
                   position_in_memory := call_addr }

/-- `fn jump`: set the program counter to `addr`. -/
def jump (cpu : CPU) (addr : Nat) : CPU :=
  { cpu with position_in_memory := addr }

/-- `fn add_xy`: 8-bit wrapping add (`overflowing_add`), result into
`registers[x]` first, then the carry flag into `registers[0xF]`. -/
def add_xy (cpu : CPU) (x y : Nat) : Except Fault CPU := do
  let arg1 ← regGet cpu x
  let arg2 ← regGet cpu y
  let val := (arg1 + arg2) % 256
  let cpu1 ← regSet cpu x val
  if 256 ≤ arg1 + arg2 then regSet cpu1 0xF 1 else regSet cpu1 0xF 0

/-- `fn sub_xy`: the flag `registers[0xF] = if arg1 >= arg2 { 1 } else { 0 }`
is written first, then the 8-bit wrapping difference
`arg2.wrapping_sub(arg1)` goes into `registers[y]`. -/
def sub_xy (cpu : CPU) (x y : Nat) : Except Fault CPU := do
  let arg1 ← regGet cpu x
  let arg2 ← regGet cpu y
  let cpu1 ← regSet cpu 0xF (if arg1 ≥ arg2 then 1 else 0)
  let val := (256 + arg2 - arg1) % 256
  regSet cpu1 y val

/-- The field extraction performed at the top of `fn run`'s loop body
(lines 19–24 of the source): `(c, x, y, d, nnn)`. -/
def decode (opcode : Nat) : Nat × Nat × Nat × Nat × Nat :=
  ((opcode &&& 0xF000) >>> 12,
   (opcode &&& 0x0F00) >>> 8,
   (opcode &&& 0x00F0) >>> 4,
   (opcode &&& 0x000F) >>> 0,
   opcode &&& 0x0FFF)

/-- Result of one loop iteration: either the `return` arm was taken
(`halt`) or execution continues (`cont`). -/
inductive StepResult where
  | halt (cpu : CPU)
  | cont (cpu : CPU)

/-- The `match (c, x, y, d)` dispatch of `fn run`, applied to a state whose
program counter has already been advanced past the instruction. -/
def execInstr (cpu : CPU) (opcode : Nat) : Except Fault StepResult :=
  let c := (decode opcode).1
  let x := (decode opcode).2.1
  let y := (decode opcode).2.2.1
  let d := (decode opcode).2.2.2.1
  let nnn := (decode opcode).2.2.2.2
  if c = 0 ∧ x = 0 ∧ y = 0 ∧ d = 0 then .ok (.halt cpu)
  else if c = 0 ∧ x = 0 ∧ y = 0xE ∧ d = 0xE then do .ok (.cont (← ret cpu))
  else if c = 0x1 then .ok (.cont (jump cpu nnn))
  else if c = 0x2 then do .ok (.cont (← call cpu nnn))
  else if c = 0x8 ∧ d = 0x4 then do .ok (.cont (← add_xy cpu x y))
  else if c = 0x8 ∧ d = 0x5 then do .ok (.cont (← sub_xy cpu x y))
  else .error (.unsupportedOpcode opcode)

/-- One iteration of `fn run`'s loop: fetch, advance the program counter by
2, then dispatch. -/
def step (cpu : CPU) : Except Fault StepResult := do
  let opcode ← read_opcode cpu
  execInstr { cpu with position_in_memory := cpu.position_in_memory + 2 } opcode

/-- Outcome of running the loop for a bounded number of iterations:
`halted` if the `return` arm was reached, `running` if fuel ran out with
the machine still going. -/
inductive Outcome where
  | halted (cpu : CPU)
  | running (cpu : CPU)

/-- `fn run`'s `loop`, with explicit fuel. -/
def run : Nat → CPU → Except Fault Outcome
  | 0, cpu => .ok (.running cpu)
  | fuel + 1, cpu => do
    match ← step cpu with
    | .halt c => .ok (.halted c)
    | .cont c => run fuel c

/-- The all-zero machine `fn main` starts from. -/
def zeroCPU : CPU :=
  { registers := fun _ => 0
    position_in_memory := 0
    memory := fun _ => 0
    stack := fun _ => 0
    stack_pointer := 0 }

/-! ### Reduction lemmas for the embedding -/

theorem ok_bind {α β : Type} (a : α) (f : α → Except Fault β) :
    (Bind.bind (Except.ok a) f) = f a := rfl

theorem regGet_fin (cpu : CPU) (i : Fin 16) :
    regGet cpu i.val = .ok (cpu.registers i) := by
  rw [regGet, dif_pos i.isLt]

theorem regSet_fin (cpu : CPU) (i : Fin 16) (v : Nat) :
    regSet cpu i.val v = .ok { cpu with registers := Function.update cpu.registers i v } := by
  rw [regSet, dif_pos i.isLt]

theorem regSet15 (cpu : CPU) (v : Nat) :
    regSet cpu 0xF v = .ok { cpu with registers := Function.update cpu.registers 15 v } := by
  rw [regSet, dif_pos (by norm_num : (0xF : Nat) < 16)]
  rfl

theorem stackGet_fin (cpu : CPU) (i : Nat) (h : i < 16) :
    stackGet cpu i = .ok (cpu.stack ⟨i, h⟩) := by
  rw [stackGet, dif_pos h]

theorem stackSet_fin (cpu : CPU) (i : Nat) (h : i < 16) (v : Nat) :
    stackSet cpu i v = .ok { cpu with stack := Function.update cpu.stack ⟨i, h⟩ v } := by
  rw [stackSet, dif_pos h]

/-- Full characterization of `add_xy` on in-range register indices: the
wrapped sum lands in `registers[x]`, then the carry flag overwrites
`registers[15]`. -/
theorem add_xy_eq (cpu : CPU) (x y : Fin 16) :
    add_xy cpu x.val y.val = .ok { cpu with registers := Function.update (Function.update cpu.registers x ((cpu.registers x + cpu.registers y) % 256)) 15 (if 256 ≤ cpu.registers x + cpu.registers y then 1 else 0) } := by
  simp only [add_xy, regGet_fin, ok_bind, regSet_fin, regSet15]
  split
  · rename_i h
    simp [h]
  · rename_i h
    simp [h]

/-- Full characterization of `sub_xy` on in-range register indices: the
borrow flag is written to `registers[15]` first, then the wrapped
difference overwrites `registers[y]`. -/
theorem sub_xy_eq (cpu : CPU) (x y : Fin 16) :
    sub_xy cpu x.val y.val = .ok { cpu with registers := Function.update (Function.update cpu.registers 15 (if cpu.registers x ≥ cpu.registers y then 1 else 0)) y ((256 + cpu.registers y - cpu.registers x) % 256) } := by
  simp only [sub_xy, regGet_fin, ok_bind, regSet15, regSet_fin]

/-- Characterization of `call` when the stack has a free slot. -/
theorem call_eq (cpu : CPU) (addr : Nat) (hsp : cpu.stack_pointer < 16) :
    call cpu addr = .ok { cpu with stack := Function.update cpu.stack ⟨cpu.stack_pointer, hsp⟩ (cpu.position_in_memory % 65536), stack_pointer := cpu.stack_pointer + 1, position_in_memory := addr } := by
  rw [call, if_neg (by omega), stackSet_fin cpu _ hsp, ok_bind]

/-- Characterization of `ret` on a nonempty stack (stack pointer within the
machine invariant `≤ 16`). -/
theorem ret_ok (cpu : CPU) (hsp : cpu.stack_pointer ≤ 16) (hpos : cpu.stack_pointer ≠ 0) :
    ret cpu = .ok { cpu with stack_pointer := cpu.stack_pointer - 1, position_in_memory := cpu.stack ⟨cpu.stack_pointer - 1, by omega⟩ } := by
  rw [ret, if_neg hpos, stackGet_fin cpu _ (by omega), ok_bind]

/-! ### Concrete machines used as test inputs -/

/-- A machine with `registers[0] = 0` and `registers[1] = 1`, the input on
which the subtraction-flag direction is decided. -/
def subCexCpu : CPU :=
  { zeroCPU with registers := fun i => if i.val = 1 then 1 else 0 }

/-- A machine with `registers[2] = 200` and `registers[3] = 100`. -/
def arithTestCpu : CPU :=
  { zeroCPU with registers := fun i => if i.val = 2 then 200 else if i.val = 3 then 100 else 0 }

/-! ### Claim theorems -/

/-- C1 (counterexample): with `registers[0] = 0 ≤ registers[1] = 1`, the
claim requires the flag `registers[15]` to end up `1`; `sub_xy 0 1` stores
the correct wrapped difference `1` into `registers[1]` but sets the flag to
`0`, not `1` (the source sets the flag on `arg1 >= arg2`, i.e.
`registers[x] ≥ registers[y]`). -/
theorem sub_flag_claim_cex :
    Except.map (fun c => (c.registers 1, c.registers 15)) (sub_xy subCexCpu 0 1) = .ok (1, 0)
    ∧ (0 : Nat) ≠ 1 :=
  ⟨rfl, by decide⟩

/-- C1 (amended): for distinct in-range register indices `x, y` (neither 15)
and 8-bit values `a, b`, `sub_xy x y` leaves `registers[y] = (b − a) mod 256`
and sets the flag register to 1 iff `a ≥ b` (the source compares
`arg1 >= arg2`, the reverse direction of the claim's `a ≤ b`). -/
theorem sub_xy_spec (cpu : CPU) (x y : Fin 16) (a b : Nat) (hxy : x ≠ y)
    (hx : x ≠ 15) (hy : y ≠ 15) (ha : cpu.registers x = a) (hb : cpu.registers y = b)
    (ha8 : a < 256) (hb8 : b < 256) :
    Except.map (fun c => (c.registers y, c.registers 15)) (sub_xy cpu x.val y.val)
      = .ok ((256 + b - a) % 256, if a ≥ b then 1 else 0) := by
  subst ha
  subst hb
  rw [sub_xy_eq]
  simp [Except.map, Function.update_noteq (Ne.symm hy)]

/-- Witness for C1 (amended) at `a = 200`, `b = 100`:
`(256 + 100 - 200) % 256 = 156` and `200 ≥ 100` gives flag `1`. -/
theorem sub_xy_spec_witness :
    Except.map (fun c => (c.registers 3, c.registers 15)) (sub_xy arithTestCpu 2 3) = .ok (156, 1) :=
  sub_xy_spec arithTestCpu 2 3 200 100 (by decide) (by decide) (by decide) rfl rfl
    (by decide) (by decide)

/-- C2: for distinct in-range register indices `x, y` (neither 15) and
8-bit values `a, b`, `add_xy x y` leaves `registers[x] = (a + b) mod 256`
and sets the flag register to 1 iff `a + b > 255`. -/
theorem add_xy_spec (cpu : CPU) (x y : Fin 16) (a b : Nat) (hxy : x ≠ y)
    (hx : x ≠ 15) (hy : y ≠ 15) (ha : cpu.registers x = a) (hb : cpu.registers y = b)
    (ha8 : a < 256) (hb8 : b < 256) :
    Except.map (fun c => (c.registers x, c.registers 15)) (add_xy cpu x.val y.val)
      = .ok ((a + b) % 256, if 255 < a + b then 1 else 0) := by
  subst ha
  subst hb
  rw [add_xy_eq]
  simp [Except.map, Function.update_noteq hx]
  split_ifs <;> omega

/-- Witness for C2 at `a = 200`, `b = 100`: `(200 + 100) % 256 = 44` and
`300 > 255` gives flag `1`. -/
theorem add_xy_spec_witness :
    Except.map (fun c => (c.registers 2, c.registers 15)) (add_xy arithTestCpu 2 3) = .ok (44, 1) :=
  add_xy_spec arithTestCpu 2 3 200 100 (by decide) (by decide) (by decide) rfl rfl
    (by decide) (by decide)

/-- C9: `add_xy` and `sub_xy` leave memory, stack, stack pointer and
program counter unchanged, and their register banks change only at the
written register (`x` for add, `y` for sub) and the flag register 15;
`jump` changes nothing but the program counter. -/
theorem frame_ops (cpu : CPU) (x y : Fin 16) (addr : Nat) :
    (∃ c, add_xy cpu x.val y.val = .ok c ∧ c.memory = cpu.memory ∧ c.stack = cpu.stack ∧ c.stack_pointer = cpu.stack_pointer ∧ c.position_in_memory = cpu.position_in_memory ∧ c.registers = Function.update (Function.update cpu.registers x ((cpu.registers x + cpu.registers y) % 256)) 15 (if 256 ≤ cpu.registers x + cpu.registers y then 1 else 0)) ∧
    (∃ c, sub_xy cpu x.val y.val = .ok c ∧ c.memory = cpu.memory ∧ c.stack = cpu.stack ∧ c.stack_pointer = cpu.stack_pointer ∧ c.position_in_memory = cpu.position_in_memory ∧ c.registers = Function.update (Function.update cpu.registers 15 (if cpu.registers x ≥ cpu.registers y then 1 else 0)) y ((256 + cpu.registers y - cpu.registers x) % 256)) ∧
    ((jump cpu addr).registers = cpu.registers ∧ (jump cpu addr).memory = cpu.memory ∧ (jump cpu addr).stack = cpu.stack ∧ (jump cpu addr).stack_pointer = cpu.stack_pointer ∧ (jump cpu addr).position_in_memory = addr) :=
  ⟨⟨_, add_xy_eq cpu x y, rfl, rfl, rfl, rfl, rfl⟩,
   ⟨_, sub_xy_eq cpu x y, rfl, rfl, rfl, rfl, rfl⟩,
   rfl, rfl, rfl, rfl, rfl⟩

/-- C10: when the destination register aliases the flag register, `add_xy`
with `x = 15` leaves the carry flag in `registers[15]` (flag written after
the sum), while `sub_xy` with `y = 15` leaves the wrapped difference there
(difference written after the flag). -/
theorem flag_alias (cpu : CPU) (x y : Fin 16) :
    Except.map (fun c => c.registers 15) (add_xy cpu 15 y.val)
      = .ok (if 256 ≤ cpu.registers 15 + cpu.registers y then 1 else 0) ∧
    Except.map (fun c => c.registers 15) (sub_xy cpu x.val 15)
      = .ok ((256 + cpu.registers 15 - cpu.registers x) % 256) := by
  constructor
  · show Except.map (fun c => c.registers 15) (add_xy cpu ((15 : Fin 16)).val y.val) = _
    rw [add_xy_eq]
    simp [Except.map]
  · show Except.map (fun c => c.registers 15) (sub_xy cpu x.val ((15 : Fin 16)).val) = _
    rw [sub_xy_eq]
    simp [Except.map]

/-- A machine whose 16-slot stack is completely full (`stack_pointer = 16`,
i.e. sixteen nested calls are active). -/
def fullStackCpu : CPU :=
  { zeroCPU with stack_pointer := 16 }

/-- A machine with three active frames and return address `0xABC` on top. -/
def retTestCpu : CPU :=
  { zeroCPU with stack_pointer := 3, stack := fun i => if i.val = 2 then 0xABC else 0 }

/-- A machine about to execute a call from program counter `0x002`. -/
def c5Cpu : CPU :=
  { zeroCPU with position_in_memory := 0x002 }

/-- C3 (code bug): the source guard is `sp > stack.len()`, so with the
stack already full (`stack_pointer = 16`) the guard passes and the write
`stack[16]` aborts with an index-out-of-bounds panic, not the claimed
StackOverflow condition; the sixteenth nested call (from `sp = 15`) still
succeeds. StackOverflow is only raised for `sp ≥ 17`, which the invariant
`sp ≤ 16` makes unreachable. -/
theorem call_full_stack :
    call fullStackCpu 0x300 = .error .indexOutOfBounds ∧
    call fullStackCpu 0x300 ≠ .error .stackOverflow ∧
    (∃ c, call { zeroCPU with stack_pointer := 15 } 0x300 = .ok c) ∧
    call { zeroCPU with stack_pointer := 17 } 0x300 = .error .stackOverflow := by
  refine ⟨rfl, ?_, ⟨_, rfl⟩, rfl⟩
  rw [show call fullStackCpu 0x300 = .error .indexOutOfBounds from rfl]
  simp

/-- C4: `ret` raises StackUnderflow exactly when `stack_pointer = 0`;
otherwise it decrements the stack pointer and jumps to the address read
from `stack` at the decremented index. -/
theorem ret_spec (cpu : CPU) (hsp : cpu.stack_pointer ≤ 16) :
    ret cpu = if cpu.stack_pointer = 0 then .error .stackUnderflow
      else .ok { cpu with stack_pointer := cpu.stack_pointer - 1, position_in_memory := cpu.stack ⟨cpu.stack_pointer - 1, by omega⟩ } := by
  by_cases h : cpu.stack_pointer = 0
  · simp [ret, h]
  · rw [if_neg h, ret_ok cpu hsp h]

/-- Witness for C4 on a machine with three frames and `0xABC` on top:
`ret` pops to `stack_pointer = 2` and jumps to `0xABC`. -/
theorem ret_spec_witness :
    ret retTestCpu = if retTestCpu.stack_pointer = 0 then .error .stackUnderflow
      else .ok { retTestCpu with stack_pointer := retTestCpu.stack_pointer - 1, position_in_memory := retTestCpu.stack ⟨retTestCpu.stack_pointer - 1, by decide⟩ } :=
  ret_spec retTestCpu (by decide)

/-- C5: from any state with a free stack slot, `call addr` followed
immediately by `ret` restores both the program counter (the post-fetch
address of the instruction after the call) and the stack pointer. -/
theorem call_ret_roundtrip (cpu : CPU) (addr : Nat) (haddr : addr < 4096)
    (hsp : cpu.stack_pointer < 16) (hpc : cpu.position_in_memory < 65536) :
    Except.map (fun c => (c.position_in_memory, c.stack_pointer)) (Bind.bind (call cpu addr) ret)
      = .ok (cpu.position_in_memory, cpu.stack_pointer) := by
  rw [call_eq cpu addr hsp, ok_bind,
    ret_ok _ (by show cpu.stack_pointer + 1 ≤ 16; omega) (by show cpu.stack_pointer + 1 ≠ 0; omega)]
  simp [Except.map, Nat.mod_eq_of_lt hpc]

/-- Witness for C5: calling `0x100` from `pc = 0x002` with an empty stack
and returning lands back at `pc = 0x002` with an empty stack. -/
theorem call_ret_roundtrip_witness :
    Except.map (fun c => (c.position_in_memory, c.stack_pointer)) (Bind.bind (call c5Cpu 0x100) ret)
      = .ok (2, 0) :=
  call_ret_roundtrip c5Cpu 0x100 (by decide) (by decide) (by decide)

/-- Bit-slice arithmetic behind the decoder: masking with a shifted
all-ones block and shifting down extracts a base-2 digit group. -/
theorem and_mask_shift (x m k : Nat) :
    (x &&& ((2 ^ m - 1) <<< k)) >>> k = x / 2 ^ k % 2 ^ m := by
  apply Nat.eq_of_testBit_eq
  intro i
  rw [← Nat.shiftRight_eq_div_pow]
  simp [Nat.testBit_shiftRight, Nat.testBit_and, Nat.testBit_shiftLeft,
    Nat.testBit_two_pow_sub_one, Nat.testBit_mod_two_pow, Nat.le_add_right,
    Nat.add_sub_cancel_left, Bool.and_comm]

/-- C6: with a valid program counter (`pc ≤ memory.len() − 2`) and byte-valued
memory, the fetch returns `memory[pc] * 256 + memory[pc+1]` and cannot fail;
one loop iteration is exactly dispatch on that word with the program counter
already advanced by 2; and the decoded fields are the bit slices 12–15
(class), 8–11 (x), 4–7 (y), 0–3 (d) and 0–11 (address) of the word. -/
theorem fetch_decode_spec (cpu : CPU) (opcode : Nat)
    (hpc : cpu.position_in_memory ≤ 4094)
    (hmem : ∀ i : Fin 4096, cpu.memory i < 256) :
    read_opcode cpu = .ok (256 * cpu.memory ⟨cpu.position_in_memory, by omega⟩ + cpu.memory ⟨cpu.position_in_memory + 1, by omega⟩) ∧
    step cpu = execInstr { cpu with position_in_memory := cpu.position_in_memory + 2 } (256 * cpu.memory ⟨cpu.position_in_memory, by omega⟩ + cpu.memory ⟨cpu.position_in_memory + 1, by omega⟩) ∧
    (decode opcode).1 = opcode / 4096 % 16 ∧
    (decode opcode).2.1 = opcode / 256 % 16 ∧
    (decode opcode).2.2.1 = opcode / 16 % 16 ∧
    (decode opcode).2.2.2.1 = opcode % 16 ∧
    (decode opcode).2.2.2.2 = opcode % 4096 := by
  have hro : read_opcode cpu = .ok (256 * cpu.memory ⟨cpu.position_in_memory, by omega⟩ + cpu.memory ⟨cpu.position_in_memory + 1, by omega⟩) := by
    rw [read_opcode, memGet, dif_pos (by omega : cpu.position_in_memory < 4096), ok_bind,
      memGet, dif_pos (by omega : cpu.position_in_memory + 1 < 4096), ok_bind,
      Nat.shiftLeft_eq,
      Nat.mul_comm (cpu.memory ⟨cpu.position_in_memory, by omega⟩) (2 ^ 8),
      ← Nat.mul_add_lt_is_or (by simpa using hmem ⟨cpu.position_in_memory + 1, by omega⟩)]
    norm_num
    rfl
  refine ⟨hro, by rw [step, hro, ok_bind], ?_, ?_, ?_, ?_, ?_⟩
  · have hm : (0xF000 : Nat) = (2 ^ 4 - 1) <<< 12 := by norm_num [Nat.shiftLeft_eq]
    show (opcode &&& 0xF000) >>> 12 = _
    rw [hm, and_mask_shift]
    norm_num
  · have hm : (0x0F00 : Nat) = (2 ^ 4 - 1) <<< 8 := by norm_num [Nat.shiftLeft_eq]
    show (opcode &&& 0x0F00) >>> 8 = _
    rw [hm, and_mask_shift]
    norm_num
  · have hm : (0x00F0 : Nat) = (2 ^ 4 - 1) <<< 4 := by norm_num [Nat.shiftLeft_eq]
    show (opcode &&& 0x00F0) >>> 4 = _
    rw [hm, and_mask_shift]
    norm_num
  · have hm : (0x000F : Nat) = (2 ^ 4 - 1) <<< 0 := by norm_num [Nat.shiftLeft_eq]
    show (opcode &&& 0x000F) >>> 0 = _
    rw [hm, and_mask_shift]
    norm_num
  · have hm : (0x0FFF : Nat) = 2 ^ 12 - 1 := by norm_num
    show opcode &&& 0x0FFF = _
    rw [hm, Nat.and_pow_two_sub_one_eq_mod]

/-- Witness for C6 on the all-zero machine (every memory byte is `0 < 256`)
and the word `0xABCD`: the fetch reads `0x0000` and the decoded fields of
`0xABCD` are `A`, `B`, `C`, `D` and `BCD`. -/
theorem fetch_decode_spec_witness :
    read_opcode zeroCPU = .ok (256 * zeroCPU.memory ⟨zeroCPU.position_in_memory, by decide⟩ + zeroCPU.memory ⟨zeroCPU.position_in_memory + 1, by decide⟩) ∧
    step zeroCPU = execInstr { zeroCPU with position_in_memory := zeroCPU.position_in_memory + 2 } (256 * zeroCPU.memory ⟨zeroCPU.position_in_memory, by decide⟩ + zeroCPU.memory ⟨zeroCPU.position_in_memory + 1, by decide⟩) ∧
    (decode 0xABCD).1 = 0xABCD / 4096 % 16 ∧
    (decode 0xABCD).2.1 = 0xABCD / 256 % 16 ∧
    (decode 0xABCD).2.2.1 = 0xABCD / 16 % 16 ∧
    (decode 0xABCD).2.2.2.1 = 0xABCD % 16 ∧
    (decode 0xABCD).2.2.2.2 = 0xABCD % 4096 :=
  fetch_decode_spec zeroCPU 0xABCD (by decide) (fun _ => by norm_num [zeroCPU])

/-- C7: any decoded field tuple matching none of the six supported shapes
makes dispatch fail with UnsupportedOpcode carrying the raw word — there is
no silent fallthrough. -/
theorem dispatch_unsupported (cpu : CPU) (opcode : Nat)
    (h : ¬(((decode opcode).1 = 0 ∧ (decode opcode).2.1 = 0 ∧ (decode opcode).2.2.1 = 0 ∧ (decode opcode).2.2.2.1 = 0) ∨
           ((decode opcode).1 = 0 ∧ (decode opcode).2.1 = 0 ∧ (decode opcode).2.2.1 = 0xE ∧ (decode opcode).2.2.2.1 = 0xE) ∨
           (decode opcode).1 = 0x1 ∨ (decode opcode).1 = 0x2 ∨
           ((decode opcode).1 = 0x8 ∧ (decode opcode).2.2.2.1 = 0x4) ∨
           ((decode opcode).1 = 0x8 ∧ (decode opcode).2.2.2.1 = 0x5))) :
    execInstr cpu opcode = .error (.unsupportedOpcode opcode) := by
  have n1 : ¬((decode opcode).1 = 0 ∧ (decode opcode).2.1 = 0 ∧ (decode opcode).2.2.1 = 0 ∧ (decode opcode).2.2.2.1 = 0) := fun g => h (Or.inl g)
  have n2 : ¬((decode opcode).1 = 0 ∧ (decode opcode).2.1 = 0 ∧ (decode opcode).2.2.1 = 0xE ∧ (decode opcode).2.2.2.1 = 0xE) := fun g => h (Or.inr (Or.inl g))
  have n3 : ¬((decode opcode).1 = 0x1) := fun g => h (Or.inr (Or.inr (Or.inl g)))
  have n4 : ¬((decode opcode).1 = 0x2) := fun g => h (Or.inr (Or.inr (Or.inr (Or.inl g))))
  have n5 : ¬((decode opcode).1 = 0x8 ∧ (decode opcode).2.2.2.1 = 0x4) := fun g => h (Or.inr (Or.inr (Or.inr (Or.inr (Or.inl g)))))
  have n6 : ¬((decode opcode).1 = 0x8 ∧ (decode opcode).2.2.2.1 = 0x5) := fun g => h (Or.inr (Or.inr (Or.inr (Or.inr (Or.inr g)))))
  simp only [execInstr]
  rw [if_neg n1, if_neg n2, if_neg n3, if_neg n4, if_neg n5, if_neg n6]

/-- Witness for C7: the word `0xFFFF` (class 15) matches no supported
shape and faults with UnsupportedOpcode 0xFFFF. -/
theorem dispatch_unsupported_witness :
    execInstr zeroCPU 0xFFFF = .error (.unsupportedOpcode 0xFFFF) :=
  dispatch_unsupported zeroCPU 0xFFFF (by decide)

/-- The end-to-end scenario machine: `Call 0x100` at address 0, the body
`AddRegisters(0,1); Return` at 0x100, and `registers[0] = 5`,
`registers[1] = 10`. -/
def c8Cpu : CPU :=
  { zeroCPU with
    registers := fun i => if i.val = 0 then 5 else if i.val = 1 then 10 else 0
    memory := fun i => if i.val = 0x000 then 0x21 else if i.val = 0x001 then 0x00 else if i.val = 0x100 then 0x80 else if i.val = 0x101 then 0x14 else if i.val = 0x102 then 0x00 else if i.val = 0x103 then 0xEE else 0 }

/-- C8: running the scenario machine from `pc = 0`, the state right after
the Return (three iterations: call, add, return) has `pc = 0x002`, and one
further iteration halts on the `0x0000` word there with
`registers[0] = 15` and flag `registers[15] = 0`. -/
theorem c8_end_to_end :
    ∃ mid fin,
      run 3 c8Cpu = .ok (.running mid) ∧ mid.position_in_memory = 0x002 ∧
      run 4 c8Cpu = .ok (.halted fin) ∧ fin.registers 0 = 15 ∧ fin.registers 15 = 0 :=
  ⟨_, _, rfl, rfl, rfl, rfl, rfl⟩

end Chip8
